import Mathlib

/-!
Verification of the language front-end and tree-walking interpreter
(lexer.h, parser.h / parser.cpp, interpreter.h, entry.cpp).

The development is a shallow embedding of the C++ sources:
* the lexer's `nextToken` is fuel-indexed, where fuel is consumed only by the
  retry in `handleSemicolon` (the only possibly unbounded recursion inside a
  single `nextToken` call); every internal character-consuming loop is given a
  fuel derived from the remaining source length, which always suffices because
  each iteration consumes at least one character;
* the parser is modeled over a token stream materialized by `tokenize`
  (the C++ parser pulls tokens lazily; the two agree whenever the lexer
  terminates on the whole input, and `tokenize` returns `none` when it does
  not);
* the interpreter is a mutual fuel-indexed recursion returning a
  `(result, state)` pair even on error, mirroring the fact that the C++
  `Interpreter` object (and thus its `variables` member) survives a thrown
  `std::runtime_error`.

C++ `int` arithmetic is modeled on `Int` (no claim under scrutiny exercises
overflow); `x / y` uses `Int.tdiv`, which truncates toward zero exactly like
native C++ integer division (division by zero is undefined behavior in C++
and unchecked by the interpreter; `Int.tdiv` totalizes it as `0`).
-/

/-- Token kinds, from `enum class token_type` in lexer.h. -/
inductive token_type where
  | Identifier | Number | String
  | Let | Const | Class | Function
  | Int | Double | Bool | Return
  | Plus | Minus | Star | Slash
  | Equal | EqualEqual | PlusPlus
  | LParen | RParen | LBrace | RBrace
  | Semicolon | Colon | Comma | Print | MinusMinus
  | For | While | In | Less | Greater | BangEqual | LessEqual | GreaterEqual
  | LBracket | RBracket
  | End | Unexpected
deriving DecidableEq, Repr

/-- Printable token-kind names, from the `tokenToString` map in lexer.h
(every enumerator is present in the map, so the "Unknown" fallback of
`tokenTypeToString` is unreachable). -/
def tokenTypeToString : token_type → String
  | .Identifier => "Identifier"
  | .Number => "Number"
  | .String => "String"
  | .Let => "Let"
  | .Const => "Const"
  | .Class => "Class"
  | .Function => "Function"
  | .Int => "Int"
  | .Print => "print"
  | .Double => "Double"
  | .Bool => "Bool"
  | .Return => "Return"
  | .Less => "Less"
  | .Greater => "Greater"
  | .GreaterEqual => "GreaterEqual"
  | .BangEqual => "BangEqual"
  | .LessEqual => "LessEqual"
  | .LBracket => "LBracket"
  | .RBracket => "RBracket"
  | .Plus => "Plus"
  | .Minus => "Minus"
  | .For => "For"
  | .In => "In"
  | .While => "While"
  | .Star => "Star"
  | .Slash => "Slash"
  | .Equal => "Equal"
  | .EqualEqual => "EqualEqual"
  | .PlusPlus => "PlusPlus"
  | .MinusMinus => "MinusMinus"
  | .LParen => "LParen"
  | .RParen => "RParen"
  | .LBrace => "LBrace"
  | .RBrace => "RBrace"
  | .Semicolon => "Semicolon"
  | .Colon => "Colon"
  | .Comma => "Comma"
  | .End => "End"
  | .Unexpected => "Unexpected"

/-- A lexical token (`struct Token` in lexer.h). -/
structure Token where
  type : token_type
  lexeme : String
  line : Nat
  column : Nat
deriving DecidableEq, Repr

/-- Lexer state: the C++ `Lexer`'s private members. `source` is immutable. -/
structure LexState where
  source : List Char
  current : Nat
  start : Nat
  line : Nat
  column : Nat
  line_start : Nat
  column_start : Nat
deriving DecidableEq, Repr

namespace Lexer

def isAtEnd (st : LexState) : Bool := st.source.length ≤ st.current

/-- `Lexer::peek`. -/
def peek (st : LexState) : Char :=
  if isAtEnd st then '\x00' else st.source.getD st.current '\x00'

/-- `Lexer::peekNext`. -/
def peekNext (st : LexState) : Char :=
  if st.source.length ≤ st.current + 1 then '\x00'
  else st.source.getD (st.current + 1) '\x00'

/-- `Lexer::advance`: consume one character, tracking line/column. -/
def advance (st : LexState) : Char × LexState :=
  if isAtEnd st then ('\x00', st)
  else
    let c := st.source.getD st.current '\x00'
    let st' := { st with current := st.current + 1 }
    if c = '\n' then (c, { st' with line := st'.line + 1, column := 1 })
    else (c, { st' with column := st'.column + 1 })

/-- `Lexer::match`: conditional one-character lookahead consume. -/
def matchChar (expected : Char) (st : LexState) : Bool × LexState :=
  if isAtEnd st then (false, st)
  else if st.source.getD st.current '\x00' ≠ expected then (false, st)
  else (true, (advance st).2)

/-- The slice `source.substr(start, current - start)`. -/
def substr (st : LexState) : String :=
  String.mk ((st.source.drop st.start).take (st.current - st.start))

/-- `Lexer::makeToken`. -/
def makeToken (type : token_type) (st : LexState) : Token :=
  { type := type, lexeme := substr st, line := st.line_start, column := st.column_start }

/-- `Lexer::errorToken`. -/
def errorToken (message : String) (st : LexState) : Token :=
  { type := .Unexpected, lexeme := message, line := st.line_start, column := st.column_start }

/-- `Lexer::isAlpha`. -/
def isAlpha (c : Char) : Bool :=
  ('a' ≤ c ∧ c ≤ 'z') ∨ ('A' ≤ c ∧ c ≤ 'Z') ∨ c = '_'

/-- The C library `isdigit` as used on source characters. -/
def isDigitC (c : Char) : Bool := '0' ≤ c ∧ c ≤ '9'

/-- `Lexer::isAlphaNumeric`. -/
def isAlphaNumeric (c : Char) : Bool := isAlpha c ∨ isDigitC c

/-- The inner comment loop of `Lexer::skipWhitespace`:
`while (peek() != '\n' && !isAtEnd()) advance();`. -/
def skipLineComment : Nat → LexState → LexState
  | 0, st => st
  | n + 1, st =>
    if peek st ≠ '\n' ∧ isAtEnd st = false then skipLineComment n (advance st).2
    else st

/-- `Lexer::skipWhitespace`. Fuel `source.length + 1 - current` always
suffices since every loop iteration consumes at least one character. -/
def skipWhitespace : Nat → LexState → LexState
  | 0, st => st
  | n + 1, st =>
    match peek st with
    | ' ' | '\r' | '\t' | '\n' => skipWhitespace n (advance st).2
    | '/' =>
      if peekNext st = '/' then
        skipWhitespace n (skipLineComment (st.source.length + 1 - st.current) st)
      else st
    | _ => st

/-- The reserved-word table `Lexer::keywords`; `unordered_map::find` is
modeled as a chain of string-equality tests. -/
def keywordFind (text : String) : Option token_type :=
  if text = "let" then some .Let
  else if text = "const" then some .Const
  else if text = "class" then some .Class
  else if text = "function" then some .Function
  else if text = "int" then some .Int
  else if text = "double" then some .Double
  else if text = "bool" then some .Bool
  else if text = "for" then some .For
  else if text = "while" then some .While
  else if text = "in" then some .In
  else if text = "print" then some .Print
  else if text = "return" then some .Return
  else none

/-- The consuming loop of `Lexer::identifier`. -/
def identRun : Nat → LexState → LexState
  | 0, st => st
  | n + 1, st =>
    if isAlphaNumeric (peek st) then identRun n (advance st).2 else st

/-- `Lexer::identifier`. -/
def identifier (st : LexState) : Token × LexState :=
  let st := identRun (st.source.length + 1 - st.current) st
  let text := substr st
  match keywordFind text with
  | some k => ({ type := k, lexeme := text, line := st.line_start, column := st.column_start }, st)
  | none => (makeToken .Identifier st, st)

/-- The digit-consuming loop of `Lexer::number`. -/
def digitRun : Nat → LexState → LexState
  | 0, st => st
  | n + 1, st =>
    if isDigitC (peek st) then digitRun n (advance st).2 else st

/-- `Lexer::number`. -/
def number (st : LexState) : Token × LexState :=
  let st := digitRun (st.source.length + 1 - st.current) st
  let st :=
    if peek st = '.' ∧ isDigitC (peekNext st) then
      digitRun (st.source.length + 1 - st.current) (advance st).2
    else st
  (makeToken .Number st, st)

/-- The consuming loop of `Lexer::stringLiteral` (an escape character causes
the following character to be consumed unconditionally). -/
def stringRun : Nat → LexState → LexState
  | 0, st => st
  | n + 1, st =>
    if peek st ≠ '"' ∧ isAtEnd st = false then
      let st := if peek st = '\\' then (advance st).2 else st
      stringRun n (advance st).2
    else st

/-- `Lexer::stringLiteral`. -/
def stringLiteral (st : LexState) : Token × LexState :=
  let st := stringRun (st.source.length + 1 - st.current) st
  if isAtEnd st then (errorToken "Unterminated string" st, st)
  else
    let st := (advance st).2
    (makeToken .String st, st)

/-- Value of the C++ multi-character literal `'<='` (0x3C3D on the host
compilers): `case '<=':` in a `switch` over `char` compares the promoted
character against this value, which no `char` can equal. -/
def lessEqualLiteral : Char := Char.ofNat 15421

/-- Value of the C++ multi-character literal `'>='` (0x3E3D). -/
def greaterEqualLiteral : Char := Char.ofNat 15933

/-- `Lexer::nextToken`. Fuel is consumed exactly by the retry in
`Lexer::handleSemicolon` (inlined at the `';'` case), the only recursion a
single `nextToken` call performs; `none` means the retry looped past the
given fuel (the C++ code recurses without bound there, see `c7_*`). -/
def nextToken : Nat → LexState → Option (Token × LexState)
  | 0, _ => none
  | n + 1, st =>
    let st := skipWhitespace (st.source.length + 1 - st.current) st
    let st := { st with start := st.current, line_start := st.line, column_start := st.column }
    if isAtEnd st then some (makeToken .End st, st)
    else
      let (c, st) := advance st
      if isAlpha c then some (identifier st)
      else if isDigitC c then some (number st)
      else if c = '"' then some (stringLiteral st)
      else if c = '(' then some (makeToken .LParen st, st)
      else if c = ')' then some (makeToken .RParen st, st)
      else if c = '\x7b' then some (makeToken .LBrace st, st)
      else if c = '[' then some (makeToken .LBracket st, st)
      else if c = '<' then some (makeToken .Less st, st)
      else if c = lessEqualLiteral then some (makeToken .LessEqual st, st)
      else if c = '>' then some (makeToken .Greater st, st)
      else if c = greaterEqualLiteral then some (makeToken .GreaterEqual st, st)
      else if c = ']' then some (makeToken .RBracket st, st)
      else if c = '\x7d' then some (makeToken .RBrace st, st)
      else if c = ';' then
        -- Lexer::handleSemicolon
        if st.current > 1 ∧ st.source.getD (st.current - 2) '\x00' = '\n' then
          nextToken n { st with current := st.current - 1 }
        else some (makeToken .Semicolon st, st)
      else if c = ':' then some (makeToken .Colon st, st)
      else if c = ',' then some (makeToken .Comma st, st)
      else if c = '=' then
        let (m, st) := matchChar '=' st
        if m then some (makeToken .EqualEqual st, st) else some (makeToken .Equal st, st)
      else if c = '+' then
        let (m, st) := matchChar '+' st
        if m then some (makeToken .PlusPlus st, st) else some (makeToken .Plus st, st)
      else if c = '-' then
        let (m, st) := matchChar '-' st
        if m then some (makeToken .MinusMinus st, st) else some (makeToken .Minus st, st)
      else if c = '*' then some (makeToken .Star st, st)
      else if c = '/' then some (makeToken .Slash st, st)
      else some (errorToken "Unexpected character" st, st)

end Lexer

/-- The lexer's initial state for a source buffer. -/
def initLexer (src : String) : LexState :=
  { source := src.data, current := 0, start := 0, line := 1, column := 1,
    line_start := 1, column_start := 1 }

/-- Token-stream loop: pull tokens until `End` (inclusive). Fuel
`length + 2` always suffices because every token before `End` consumes at
least one character. Lexer fuel 1 is exact: a `handleSemicolon` retry never
terminates (`c7_theorem`), so any call that would need more fuel diverges in
the C++ and is reported as `none` here. -/
def tokenizeLoop : Nat → LexState → Option (List Token)
  | 0, _ => none
  | n + 1, st =>
    match Lexer.nextToken 1 st with
    | none => none
    | some (t, st') =>
      if t.type = .End then some [t]
      else (tokenizeLoop n st').map (t :: ·)

/-- The token stream of a source buffer, `End` token included;
`none` when the lexer does not terminate on it. -/
def tokenize (src : String) : Option (List Token) :=
  tokenizeLoop (src.length + 2) (initLexer src)

/-! ## Abstract syntax tree (parser.h) -/

/-- AST nodes (`struct ASTNode` and its subclasses in parser.h), one
constructor per concrete node class the parser or interpreter handles.
`ForStmt`'s init/condition/increment are `Option` because the C++ fields are
`shared_ptr`s the parser may leave null. -/
inductive ASTNode where
  | ReturnStmt (expression : ASTNode)
  | PrintStmt (expression : ASTNode)
  | BinaryExpr (op : String) (left : ASTNode) (right : ASTNode)
  | Identifier (name : String)
  | VarDecl (name : String) (type : String) (initializer : ASTNode)
  | AssignStmt (name : String) (value : ASTNode)
  | ExpressionStmt (expr : ASTNode)
  | NumberLiteral (value : Int)
  | ForStmt (init : Option ASTNode) (condition : Option ASTNode)
      (increment : Option ASTNode) (body : List ASTNode)
  | ForEachStmt (varName : String) (iterable : ASTNode) (body : List ASTNode)
  | WhileStmt (condition : ASTNode) (body : List ASTNode)
  | IndexExpr (array : ASTNode) (index : ASTNode)
  | CallExpr (funcName : String) (args : List ASTNode)
  | ArrayLiteral (elements : List ASTNode)
deriving Repr

/-- `struct FunctionDecl` (parser.h): name, (name, type) parameter pairs,
return type, body statements. -/
structure FunctionDecl where
  name : String
  params : List (String × String)
  returnType : String
  body : List ASTNode
deriving Repr

/-- A top-level construct (`Parser::parseTopLevel` returns either a function
declaration or a statement). -/
inductive TopNode where
  | fn (f : FunctionDecl)
  | stmt (s : ASTNode)
deriving Repr

/-- One exception/abnormal-outcome type for the whole pipeline: `exn` is a
thrown `std::runtime_error` message (parse or runtime), `indexOOR` is an
out-of-range `vector::operator[]` access (undefined behavior in C++, made
observable here), `noFuel` is the model's fuel exhaustion marker (covering
genuine C++ nontermination and undersupplied fuel). -/
inductive Fault where
  | exn (msg : String)
  | indexOOR
  | noFuel
deriving DecidableEq, Repr

/-- The digit-consuming core of `std::stoi`: accumulate leading decimal
digits, stopping at the first non-digit. -/
def stoiDigits : List Char → Int → Int
  | [], acc => acc
  | c :: rest, acc =>
    if Lexer.isDigitC c then stoiDigits rest (acc * 10 + ((c.toNat : Int) - 48))
    else acc

/-- `std::stoi` as applied to the lexer's `Number` lexemes (a nonempty digit
run, optionally with a fractional tail at which conversion stops). A leading
minus sign is honored as `stoi` does; other non-numeric inputs, on which the
real `stoi` throws, cannot occur as `Number` lexemes and are totalized to 0. -/
def stoi (s : String) : Int :=
  match s.data with
  | '-' :: rest => - stoiDigits rest 0
  | l => stoiDigits l 0

/-! ## Parser (parser.cpp)

The C++ parser holds a `Lexer` and one token of lookahead; here the state is
the not-yet-consumed suffix of the materialized token stream, whose head is
`currentToken` (`End`-padded past the end of input). -/

/-- Parser state: the remaining token stream. -/
structure PState where
  toks : List Token
deriving DecidableEq, Repr

/-- The token `currentToken` compares as past the end of the stream. -/
def endToken : Token := { type := .End, lexeme := "", line := 0, column := 0 }

/-- The parser's `currentToken`. -/
def curTok (st : PState) : Token := st.toks.headD endToken

/-- `Parser::advance`. -/
def advanceP (st : PState) : PState := ⟨st.toks.tail⟩

/-- `Parser::isAtEnd`. -/
def pIsAtEnd (st : PState) : Bool := (curTok st).type = .End

namespace Parser

/-- `Parser::expect`: demand a token kind, consume it, or fail with the
diagnostic message parser.cpp builds. -/
def expectT (type : token_type) (msg : String) (st : PState) : Except Fault PState :=
  if (curTok st).type = type then .ok (advanceP st)
  else .error (.exn (msg ++ ". Got: " ++ tokenTypeToString (curTok st).type
    ++ " at line " ++ toString (curTok st).line ++ ":" ++ toString (curTok st).column))

/-- `Parser::parseType`. -/
def parseType (st : PState) : Except Fault (String × PState) :=
  if (curTok st).type ≠ .Int ∧ (curTok st).type ≠ .Double ∧ (curTok st).type ≠ .Bool then
    .error (.exn ("Expected type. Got: " ++ tokenTypeToString (curTok st).type))
  else
    let type := (curTok st).lexeme
    let st := advanceP st
    if (curTok st).type = .LBracket then do
      let st := advanceP st
      let st ← expectT .RBracket "Expected ']' after '[' in type" st
      .ok (type ++ "[]", st)
    else .ok (type, st)

/-- `Parser::parseParam`. -/
def parseParam (st : PState) : Except Fault ((String × String) × PState) :=
  if (curTok st).type ≠ .Identifier then
    .error (.exn "Expected identifier in parameter")
  else do
    let name := (curTok st).lexeme
    let st := advanceP st
    let st ← expectT .Colon "Expected colon after parameter name" st
    let (type, st) ← parseType st
    .ok ((name, type), st)

/-- The parameter-list loop inside `Parser::parseFunction` (entered only when
the list is nonempty). -/
def paramsLoop : Nat → PState → Except Fault (List (String × String) × PState)
  | 0, _ => .error .noFuel
  | n + 1, st => do
    let (p, st) ← parseParam st
    if (curTok st).type = .Comma then
      let st := advanceP st
      let (ps, st) ← paramsLoop n st
      .ok (p :: ps, st)
    else .ok ([p], st)

/-- The `while` condition of the binary-operator loop at the end of
`Parser::parseBinaryExpression`. -/
def isBinOpTok : token_type → Bool
  | .Plus | .Minus | .Star | .Slash | .Less | .Greater
  | .EqualEqual | .BangEqual | .LessEqual | .GreaterEqual => true
  | _ => false

mutual

/-- `Parser::parseExpression`. -/
def parseExpression : Nat → PState → Except Fault (ASTNode × PState)
  | 0, _ => .error .noFuel
  | n + 1, st => do
    let (left, st) ← parseBinaryExpression n st
    if (curTok st).type = .Equal then
      match left with
      | .Identifier name => do
        let st := advanceP st
        let (value, st) ← parseExpression n st
        .ok (.AssignStmt name value, st)
      | _ => .error (.exn "Left side of assignment must be an identifier")
    else if (curTok st).type = .PlusPlus ∨ (curTok st).type = .MinusMinus then
      match left with
      | .Identifier name =>
        let op := if (curTok st).type = .PlusPlus then "+" else "-"
        let st := advanceP st
        .ok (.AssignStmt name (.BinaryExpr op left (.NumberLiteral 1)), st)
      | _ => .error (.exn "Left side of increment/decrement must be an identifier")
    else .ok (left, st)

/-- `Parser::parseBinaryExpression`: a primary, then the operator loop. -/
def parseBinaryExpression : Nat → PState → Except Fault (ASTNode × PState)
  | 0, _ => .error .noFuel
  | n + 1, st => do
    let (left, st) ←
      match (curTok st).type with
      | .Identifier =>
        let left := ASTNode.Identifier (curTok st).lexeme
        suffixLoop n left (advanceP st)
      | .Number =>
        let value := stoi (curTok st).lexeme
        .ok (ASTNode.NumberLiteral value, advanceP st)
      | .LParen => do
        let (e, st) ← parseExpression n (advanceP st)
        let st ← expectT .RParen "Expected ')' after expression" st
        .ok (e, st)
      | .LBracket => do
        let st := advanceP st
        let (elements, st) ←
          if (curTok st).type ≠ .RBracket then exprList n st
          else .ok ([], st)
        let st ← expectT .RBracket "Expected ']' after array literal" st
        .ok (ASTNode.ArrayLiteral elements, st)
      | _ =>
        .error (.exn ("Unsupported expression: " ++ tokenTypeToString (curTok st).type
          ++ " '" ++ (curTok st).lexeme ++ "'"))
    binOpLoop n left st

/-- The call/index suffix loop in the `Identifier` branch of
`Parser::parseBinaryExpression`. When the accumulated `left` of a call
suffix is no longer an `Identifier`, the C++ dereferences a null
`dynamic_pointer_cast` result (undefined behavior), modeled as a fault. -/
def suffixLoop : Nat → ASTNode → PState → Except Fault (ASTNode × PState)
  | 0, _, _ => .error .noFuel
  | n + 1, left, st =>
    if (curTok st).type = .LParen then do
      let st := advanceP st
      let (args, st) ←
        if (curTok st).type ≠ .RParen then exprList n st
        else .ok ([], st)
      let st ← expectT .RParen "Expected ')' after function call" st
      match left with
      | .Identifier funcName => suffixLoop n (.CallExpr funcName args) st
      | _ => .error (.exn "null Identifier dereference in call suffix")
    else if (curTok st).type = .LBracket then do
      let st := advanceP st
      let (indexExpr, st) ← parseExpression n st
      let st ← expectT .RBracket "Expected ']' after array index" st
      suffixLoop n (.IndexExpr left indexExpr) st
    else .ok (left, st)

/-- The comma-separated expression-list `do`/`while` loop shared by call
arguments and array literals. -/
def exprList : Nat → PState → Except Fault (List ASTNode × PState)
  | 0, _ => .error .noFuel
  | n + 1, st => do
    let (e, st) ← parseExpression n st
    if (curTok st).type = .Comma then
      let st := advanceP st
      let (es, st) ← exprList n st
      .ok (e :: es, st)
    else .ok ([e], st)

/-- The operator loop at the end of `Parser::parseBinaryExpression`: each
right operand is a full recursive `parseExpression` call. -/
def binOpLoop : Nat → ASTNode → PState → Except Fault (ASTNode × PState)
  | 0, _, _ => .error .noFuel
  | n + 1, left, st =>
    if isBinOpTok (curTok st).type then do
      let op := (curTok st).lexeme
      let st := advanceP st
      let (right, st) ← parseExpression n st
      binOpLoop n (.BinaryExpr op left right) st
    else .ok (left, st)

/-- `Parser::parseBlock`. -/
def parseBlock : Nat → PState → Except Fault (List ASTNode × PState)
  | 0, _ => .error .noFuel
  | n + 1, st => do
    let st ← expectT .LBrace "Expected '\x7b' to start block" st
    let (body, st) ← blockItems n st
    let st ← expectT .RBrace "Expected '\x7d' to end block" st
    .ok (body, st)

/-- The statement loop of `Parser::parseBlock`
(`while currentToken.type != RBrace && currentToken.type != End`). -/
def blockItems : Nat → PState → Except Fault (List ASTNode × PState)
  | 0, _ => .error .noFuel
  | n + 1, st =>
    if (curTok st).type ≠ .RBrace ∧ (curTok st).type ≠ .End then do
      let (s, st) ← blockItem n st
      let (rest, st) ← blockItems n st
      .ok (s :: rest, st)
    else .ok ([], st)

/-- One iteration of `Parser::parseBlock`'s statement loop. Note the
`Identifier` fallback: the identifier is consumed, and when no `=` follows,
the expression of the `ExpressionStmt` is parsed from the *next* token — the
consumed identifier is dropped (see `c6_theorem`). -/
def blockItem : Nat → PState → Except Fault (ASTNode × PState)
  | 0, _ => .error .noFuel
  | n + 1, st =>
    match (curTok st).type with
    | .Return => do
      let st := advanceP st
      let (expr, st) ← parseExpression n st
      let st ← expectT .Semicolon "Expected ';' after return" st
      .ok (.ReturnStmt expr, st)
    | .For => parseStatement n st
    | .While => parseStatement n st
    | .Print => do
      let st := advanceP st
      let st ← expectT .LParen "Expected '(' after print" st
      let (expr, st) ← parseExpression n st
      let st ← expectT .RParen "Expected ')' after print expression" st
      let st ← expectT .Semicolon "Expected ';' after print" st
      .ok (.PrintStmt expr, st)
    | .Let => do
      let st := advanceP st
      let name := (curTok st).lexeme
      let st := advanceP st
      let st ← expectT .Colon "Expected ':' after variable name" st
      let (type, st) ← parseType st
      let st ← expectT .Equal "Expected '=' after type" st
      let (initializer, st) ← parseExpression n st
      let st ← expectT .Semicolon "Expected ';' after variable declaration" st
      .ok (.VarDecl name type initializer, st)
    | .Identifier =>
      let name := (curTok st).lexeme
      let st := advanceP st
      if (curTok st).type = .Equal then do
        let st := advanceP st
        let (value, st) ← parseExpression n st
        let st ← expectT .Semicolon "Expected ';' after assignment" st
        .ok (.AssignStmt name value, st)
      else do
        let (e, st) ← parseExpression n st
        let st ← expectT .Semicolon "Expected ';' after expression" st
        .ok (.ExpressionStmt e, st)
    | _ =>
      .error (.exn ("Unsupported statement in block: " ++ tokenTypeToString (curTok st).type
        ++ " ('" ++ (curTok st).lexeme ++ "') at line "
        ++ toString (curTok st).line ++ ":" ++ toString (curTok st).column))

/-- `Parser::parseStatement`. -/
def parseStatement : Nat → PState → Except Fault (ASTNode × PState)
  | 0, _ => .error .noFuel
  | n + 1, st =>
    match (curTok st).type with
    | .Return => do
      let st := advanceP st
      let (expr, st) ← parseExpression n st
      let st ← expectT .Semicolon "Expected ';' after return" st
      .ok (.ReturnStmt expr, st)
    | .Print => do
      let st := advanceP st
      let st ← expectT .LParen "Expected '(' after print" st
      let (expr, st) ← parseExpression n st
      let st ← expectT .RParen "Expected ')' after print expression" st
      let st ← expectT .Semicolon "Expected ';' after print" st
      .ok (.PrintStmt expr, st)
    | .Let => do
      let st := advanceP st
      if (curTok st).type ≠ .Identifier then
        .error (.exn "Expected identifier after 'let'")
      else do
        let name := (curTok st).lexeme
        let st := advanceP st
        let st ← expectT .Colon "Expected ':' after variable name" st
        let (type, st) ← parseType st
        let st ← expectT .Equal "Expected '=' after type" st
        let (initializer, st) ← parseExpression n st
        let st ← expectT .Semicolon "Expected ';' after variable declaration" st
        .ok (.VarDecl name type initializer, st)
    | .Identifier => do
      let name := (curTok st).lexeme
      let st := advanceP st
      if (curTok st).type = .Equal then do
        let st := advanceP st
        let (value, st) ← parseExpression n st
        let st ← expectT .Semicolon "Expected ';' after assignment" st
        .ok (.AssignStmt name value, st)
      else if (curTok st).type = .LParen then do
        let st := advanceP st
        let (args, st) ←
          if (curTok st).type ≠ .RParen then exprList n st
          else .ok ([], st)
        let st ← expectT .RParen "Expected ')' after function call" st
        let st ← expectT .Semicolon "Expected ';' after function call" st
        .ok (.CallExpr name args, st)
      else do
        let st ← expectT .Semicolon "Expected ';' after expression" st
        .ok (.ExpressionStmt (.Identifier name), st)
    | .For => do
      let st := advanceP st
      let st ← expectT .LParen "Expected '(' after for" st
      let (init, st) ← (do
        if (curTok st).type ≠ .Semicolon then
          match (curTok st).type with
          | .Let => do
            let st := advanceP st
            if (curTok st).type ≠ .Identifier then
              .error (.exn "Expected identifier after 'let'")
            else do
              let name := (curTok st).lexeme
              let st := advanceP st
              let st ← expectT .Colon "Expected ':' after variable name" st
              let (type, st) ← parseType st
              let st ← expectT .Equal "Expected '=' after type" st
              let (initializer, st) ← parseExpression n st
              let st ← expectT .Semicolon "Expected ';' after for initializer" st
              .ok (some (ASTNode.VarDecl name type initializer), st)
          | .Identifier => do
            let name := (curTok st).lexeme
            let st := advanceP st
            let st ← expectT .Equal "Expected '=' after variable name" st
            let (value, st) ← parseExpression n st
            let st ← expectT .Semicolon "Expected ';' after for initializer" st
            .ok (some (ASTNode.AssignStmt name value), st)
          | _ => .error (.exn "Unsupported for-loop initializer")
        else .ok (none, advanceP st) : Except Fault (Option ASTNode × PState))
      let (condition, st) ← (do
        if (curTok st).type ≠ .Semicolon then do
          let (c, st) ← parseExpression n st
          .ok (some c, st)
        else .ok (none, st) : Except Fault (Option ASTNode × PState))
      let st ← expectT .Semicolon "Expected ';' after for condition" st
      let (increment, st) ← (do
        if (curTok st).type ≠ .RParen then do
          let (i, st) ← parseExpression n st
          .ok (some i, st)
        else .ok (none, st) : Except Fault (Option ASTNode × PState))
      let st ← expectT .RParen "Expected ')' after for increment" st
      let (body, st) ← parseBlock n st
      .ok (.ForStmt init condition increment body, st)
    | .While => do
      let st := advanceP st
      let st ← expectT .LParen "Expected '(' after while" st
      let (condition, st) ← parseExpression n st
      let st ← expectT .RParen "Expected ')' after while" st
      let (body, st) ← parseBlock n st
      .ok (.WhileStmt condition body, st)
    | _ => .error (.exn "Unsupported statement at top level")

/-- `Parser::parseFunction`. -/
def parseFunction : Nat → PState → Except Fault (FunctionDecl × PState)
  | 0, _ => .error .noFuel
  | n + 1, st => do
    let st ← expectT .Function "Expected 'function' keyword" st
    if (curTok st).type ≠ .Identifier then
      .error (.exn "Expected function name")
    else do
      let name := (curTok st).lexeme
      let st := advanceP st
      let st ← expectT .LParen "Expected '(' after function name" st
      let (params, st) ←
        if (curTok st).type ≠ .RParen then paramsLoop n st
        else .ok ([], st)
      let st ← expectT .RParen "Expected ')' after parameters" st
      let (returnType, st) ←
        if (curTok st).type = .Colon then parseType (advanceP st)
        else (.ok ("void", st) : Except Fault (String × PState))
      let (body, st) ← parseBlock n st
      .ok ({ name := name, params := params, returnType := returnType, body := body }, st)

/-- `Parser::parseTopLevel`. -/
def parseTopLevel : Nat → PState → Except Fault (TopNode × PState)
  | 0, _ => .error .noFuel
  | n + 1, st =>
    if (curTok st).type = .Function then do
      let (f, st) ← parseFunction n st
      .ok (.fn f, st)
    else do
      let (s, st) ← parseStatement n st
      .ok (.stmt s, st)

end

end Parser

/-! ## Interpreter (interpreter.h)

State is the `Interpreter` object's members plus the console output produced
by `print` statements (one list element per printed line). Every operation
returns a `(result, state)` pair: on a thrown `std::runtime_error` the C++
object keeps its current `variables`, so the faulted state stays observable. -/

/-- The `Interpreter`'s mutable data: `vars` (the C++ member `variables` —
`variables` is a reserved word in Lean), `functions`, and the
console lines printed so far. The two `unordered_map`s are modeled as
association lists with in-place update (map extensionality is not needed:
the save/restore in `execFunction` copies the whole map). -/
structure InterpState where
  vars : List (String × Int)
  functions : List (String × FunctionDecl)
  output : List Int
deriving Repr

/-- Lookup in an association list, first match wins (maps here never hold
duplicate keys, since insertion updates in place). -/
def lookupVar : List (String × Int) → String → Option Int
  | [], _ => none
  | (k, v) :: rest, x => if k = x then some v else lookupVar rest x

/-- The map write `variables[name] = value`: update in place, else append. -/
def insertVar : List (String × Int) → String → Int → List (String × Int)
  | [], x, v => [(x, v)]
  | (k, w) :: rest, x, v =>
    if k = x then (k, v) :: rest else (k, w) :: insertVar rest x v

/-- Lookup in the function table. -/
def lookupFn : List (String × FunctionDecl) → String → Option FunctionDecl
  | [], _ => none
  | (k, f) :: rest, x => if k = x then some f else lookupFn rest x

/-- The map write `functions[name] = func`. -/
def insertFn : List (String × FunctionDecl) → String → FunctionDecl →
    List (String × FunctionDecl)
  | [], x, f => [(x, f)]
  | (k, g) :: rest, x, f =>
    if k = x then (k, f) :: rest else (k, g) :: insertFn rest x f

namespace Interp

/-- `Interpreter::evalArray`: unconditionally a runtime fault (array support
is not implemented). -/
def evalArray (node : ASTNode) : Fault :=
  match node with
  | .Identifier name => .exn ("Array support not implemented yet for: " ++ name)
  | _ => .exn "Unsupported iterable type"

/-- The parameter-binding loop of `Interpreter::execFunction`:
`for (i = 0; i < params.size(); ++i) variables[params[i].first] = args[i]`.
The loop pairs parameters with arguments positionally; when the arguments run
out first, `args[i]` is an out-of-range `vector::operator[]` access. -/
def bindParams : List (String × String) → List Int → InterpState →
    Except Fault Unit × InterpState
  | [], _, st => (.ok (), st)
  | _ :: _, [], st => (.error .indexOOR, st)
  | p :: ps, a :: as, st =>
    bindParams ps as { st with vars := insertVar st.vars p.1 a }

mutual

/-- `Interpreter::evalExpr`. -/
def evalExpr : Nat → ASTNode → InterpState → Except Fault Int × InterpState
  | 0, _, st => (.error .noFuel, st)
  | n + 1, node, st =>
    match node with
    | .Identifier name =>
      match lookupVar st.vars name with
      | some v => (.ok v, st)
      | none => (.error (.exn ("Undefined variable: " ++ name)), st)
    | .BinaryExpr op l r =>
      match evalExpr n l st with
      | (.ok left, st) =>
        match evalExpr n r st with
        | (.ok right, st) =>
          if op = "+" then (.ok (left + right), st)
          else if op = "-" then (.ok (left - right), st)
          else if op = "*" then (.ok (left * right), st)
          else if op = "/" then (.ok (left.tdiv right), st)
          else if op = "<" then (.ok (if left < right then 1 else 0), st)
          else if op = "<=" then (.ok (if left ≤ right then 1 else 0), st)
          else if op = ">" then (.ok (if right < left then 1 else 0), st)
          else if op = ">=" then (.ok (if right ≤ left then 1 else 0), st)
          else (.error (.exn ("Unsupported operator: " ++ op)), st)
        | (.error f, st) => (.error f, st)
      | (.error f, st) => (.error f, st)
    | .NumberLiteral value => (.ok value, st)
    | .CallExpr funcName args =>
      match evalArgs n args st with
      | (.ok argvals, st) => callFunction n funcName argvals st
      | (.error f, st) => (.error f, st)
    | _ => (.error (.exn "Unknown expression type"), st)

/-- The argument-evaluation loop (`for (auto& arg : call->args)
argvals.push_back(evalExpr(arg));`), left to right. -/
def evalArgs : Nat → List ASTNode → InterpState → Except Fault (List Int) × InterpState
  | 0, _, st => (.error .noFuel, st)
  | _ + 1, [], st => (.ok [], st)
  | n + 1, e :: rest, st =>
    match evalExpr n e st with
    | (.ok v, st) =>
      match evalArgs n rest st with
      | (.ok vs, st) => (.ok (v :: vs), st)
      | (.error f, st) => (.error f, st)
    | (.error f, st) => (.error f, st)

/-- `Interpreter::callFunction`. -/
def callFunction : Nat → String → List Int → InterpState →
    Except Fault Int × InterpState
  | 0, _, _, st => (.error .noFuel, st)
  | n + 1, name, args, st =>
    match lookupFn st.functions name with
    | none => (.error (.exn ("Function not found: " ++ name)), st)
    | some func => execFunction n func args st

/-- `Interpreter::execFunction`: save the whole environment, bind parameters,
run the body, restore the saved environment (only on normal completion), and
return the computed value (0 when the body finished without a `return`). -/
def execFunction : Nat → FunctionDecl → List Int → InterpState →
    Except Fault Int × InterpState
  | 0, _, _, st => (.error .noFuel, st)
  | n + 1, func, args, st =>
    let savedVariables := st.vars
    match bindParams func.params args st with
    | (.ok _, st) =>
      match execBody n func.body st with
      | (.ok returnValue, st) =>
        (.ok (returnValue.getD 0), { st with vars := savedVariables })
      | (.error f, st) => (.error f, st)
    | (.error f, st) => (.error f, st)

/-- The statement loop of `Interpreter::execFunction`: run statements in
order; `some v` means a top-level `ReturnStmt` was hit (the C++ `break`) and
no later statement runs. -/
def execBody : Nat → List ASTNode → InterpState →
    Except Fault (Option Int) × InterpState
  | 0, _, st => (.error .noFuel, st)
  | _ + 1, [], st => (.ok none, st)
  | n + 1, s :: rest, st =>
    match execBodyStep n s st with
    | (.ok none, st) => execBody n rest st
    | (.ok (some v), st) => (.ok (some v), st)
    | (.error f, st) => (.error f, st)

/-- One iteration of `Interpreter::execFunction`'s statement dispatch. The
`if`/`else if` cast chain has no final `else`: a statement matching no case
is silently skipped (`.ok none`). -/
def execBodyStep : Nat → ASTNode → InterpState →
    Except Fault (Option Int) × InterpState
  | 0, _, st => (.error .noFuel, st)
  | n + 1, stmt, st =>
    match stmt with
    | .PrintStmt e =>
      match evalExpr n e st with
      | (.ok v, st) => (.ok none, { st with output := st.output ++ [v] })
      | (.error f, st) => (.error f, st)
    | .ReturnStmt e =>
      match evalExpr n e st with
      | (.ok v, st) => (.ok (some v), st)
      | (.error f, st) => (.error f, st)
    | .VarDecl name _ initializer =>
      match evalExpr n initializer st with
      | (.ok v, st) => (.ok none, { st with vars := insertVar st.vars name v })
      | (.error f, st) => (.error f, st)
    | .AssignStmt name value =>
      match evalExpr n value st with
      | (.ok v, st) => (.ok none, { st with vars := insertVar st.vars name v })
      | (.error f, st) => (.error f, st)
    | .ExpressionStmt e =>
      match evalExpr n e st with
      | (.ok _, st) => (.ok none, st)
      | (.error f, st) => (.error f, st)
    | .ForStmt init condition increment body =>
      match execStatementO n init st with
      | (.ok _, st) =>
        match forIter n condition increment body st with
        | (.ok _, st) => (.ok none, st)
        | (.error f, st) => (.error f, st)
      | (.error f, st) => (.error f, st)
    | .WhileStmt condition body =>
      match whileIter n condition body st with
      | (.ok _, st) => (.ok none, st)
      | (.error f, st) => (.error f, st)
    | .ForEachStmt _ iterable _ => (.error (evalArray iterable), st)
    | .CallExpr funcName args =>
      match evalArgs n args st with
      | (.ok argvals, st) =>
        match callFunction n funcName argvals st with
        | (.ok _, st) => (.ok none, st)
        | (.error f, st) => (.error f, st)
      | (.error f, st) => (.error f, st)
    | _ => (.ok none, st)

/-- `Interpreter::execStatement`. -/
def execStatement : Nat → ASTNode → InterpState → Except Fault Unit × InterpState
  | 0, _, st => (.error .noFuel, st)
  | n + 1, stmt, st =>
    match stmt with
    | .ForStmt init condition increment body =>
      match execStatementO n init st with
      | (.ok _, st) => forIter n condition increment body st
      | (.error f, st) => (.error f, st)
    | .WhileStmt condition body => whileIter n condition body st
    | .ForEachStmt _ iterable _ => (.error (evalArray iterable), st)
    | .CallExpr funcName args =>
      match evalArgs n args st with
      | (.ok argvals, st) =>
        match callFunction n funcName argvals st with
        | (.ok _, st) => (.ok (), st)
        | (.error f, st) => (.error f, st)
      | (.error f, st) => (.error f, st)
    | .PrintStmt e =>
      match evalExpr n e st with
      | (.ok v, st) => (.ok (), { st with output := st.output ++ [v] })
      | (.error f, st) => (.error f, st)
    | .VarDecl name _ initializer =>
      match evalExpr n initializer st with
      | (.ok v, st) => (.ok (), { st with vars := insertVar st.vars name v })
      | (.error f, st) => (.error f, st)
    | .AssignStmt name value =>
      match evalExpr n value st with
      | (.ok v, st) => (.ok (), { st with vars := insertVar st.vars name v })
      | (.error f, st) => (.error f, st)
    | .ExpressionStmt e =>
      match evalExpr n e st with
      | (.ok _, st) => (.ok (), st)
      | (.error f, st) => (.error f, st)
    | .ReturnStmt e =>
      -- execStatement only evaluates the expression; the value is discarded
      match evalExpr n e st with
      | (.ok _, st) => (.ok (), st)
      | (.error f, st) => (.error f, st)
    | _ => (.error (.exn "Unsupported statement at top level"), st)

/-- Execution of a possibly-null statement pointer: `execStatement(nullptr)`
falls through every `dynamic_pointer_cast` to the final `throw`. -/
def execStatementO : Nat → Option ASTNode → InterpState →
    Except Fault Unit × InterpState
  | 0, _, st => (.error .noFuel, st)
  | _ + 1, none, st => (.error (.exn "Unsupported statement at top level"), st)
  | n + 1, some s, st => execStatement n s st

/-- Evaluation of a possibly-null expression pointer: `evalExpr(nullptr)`
falls through every cast to "Unknown expression type". -/
def evalExprO : Nat → Option ASTNode → InterpState → Except Fault Int × InterpState
  | 0, _, st => (.error .noFuel, st)
  | _ + 1, none, st => (.error (.exn "Unknown expression type"), st)
  | n + 1, some e, st => evalExpr n e st

/-- The iteration of the C++ `for` loop (identical code in
`Interpreter::execStatement` and `Interpreter::execFunction`): evaluate the
condition, stop if zero, run the body statements, run the increment, repeat. -/
def forIter : Nat → Option ASTNode → Option ASTNode → List ASTNode →
    InterpState → Except Fault Unit × InterpState
  | 0, _, _, _, st => (.error .noFuel, st)
  | n + 1, condition, increment, body, st =>
    match evalExprO n condition st with
    | (.ok c, st) =>
      if c ≠ 0 then
        match execStmts n body st with
        | (.ok _, st) =>
          match execStatementO n increment st with
          | (.ok _, st) => forIter n condition increment body st
          | (.error f, st) => (.error f, st)
        | (.error f, st) => (.error f, st)
      else (.ok (), st)
    | (.error f, st) => (.error f, st)

/-- The iteration of the `while` loop (`while (evalExpr(cond)) { body }`). -/
def whileIter : Nat → ASTNode → List ASTNode → InterpState →
    Except Fault Unit × InterpState
  | 0, _, _, st => (.error .noFuel, st)
  | n + 1, condition, body, st =>
    match evalExpr n condition st with
    | (.ok c, st) =>
      if c ≠ 0 then
        match execStmts n body st with
        | (.ok _, st) => whileIter n condition body st
        | (.error f, st) => (.error f, st)
      else (.ok (), st)
    | (.error f, st) => (.error f, st)

/-- Loop-body execution (`for (auto& s : body) execStatement(s);`). -/
def execStmts : Nat → List ASTNode → InterpState → Except Fault Unit × InterpState
  | 0, _, st => (.error .noFuel, st)
  | _ + 1, [], st => (.ok (), st)
  | n + 1, s :: rest, st =>
    match execStatement n s st with
    | (.ok _, st) => execStmts n rest st
    | (.error f, st) => (.error f, st)

end

end Interp

/-! ## Driver (entry.cpp) -/

/-- `Interpreter::addFunction`. -/
def addFunction (ist : InterpState) (f : FunctionDecl) : InterpState :=
  { ist with functions := insertFn ist.functions f.name f }

/-- The driver loop of `main` in entry.cpp: pull top-level constructs until
end of input, registering function declarations and executing other
statements immediately; then, if a `main` function was declared, call it with
no arguments and report its value (`some`), else report nothing (`none`). -/
def driverLoop : Nat → PState → InterpState → Except Fault (Option Int) × InterpState
  | 0, _, ist => (.error .noFuel, ist)
  | n + 1, pst, ist =>
    if pIsAtEnd pst then
      match lookupFn ist.functions "main" with
      | some _ =>
        match Interp.callFunction n "main" [] ist with
        | (.ok result, ist) => (.ok (some result), ist)
        | (.error f, ist) => (.error f, ist)
      | none => (.ok none, ist)
    else
      match Parser.parseTopLevel n pst with
      | .error f => (.error f, ist)
      | .ok (.fn f, pst) => driverLoop n pst (addFunction ist f)
      | .ok (.stmt s, pst) =>
        match Interp.execStatement n s ist with
        | (.ok _, ist) => driverLoop n pst ist
        | (.error f, ist) => (.error f, ist)

/-- The full pipeline on a source buffer: tokenize, then parse and execute.
The result pairs the reported outcome (`some r` when a `main` function was
invoked and returned `r`) with the sequence of printed lines. -/
def runProgram (fuel : Nat) (src : String) : Except Fault (Option Int) × List Int :=
  match tokenize src with
  | none => (.error .noFuel, [])
  | some toks =>
    let (r, ist) := driverLoop fuel ⟨toks⟩ { vars := [], functions := [], output := [] }
    (r, ist.output)

/-! ## Demonstration inputs used by witnesses and concrete theorems -/

/-- The canonical program of the spec, entry.cpp and claim C4. -/
def canonicalSource : String :=
  "function main(): int \x7b for (let i: int = 0; i < 10; i++) \x7b print(i); \x7d return 0; \x7d"

/-- The token stream of `canonicalSource`. -/
def canonicalTokens : List Token :=
  [⟨.Function, "function", 1, 1⟩, ⟨.Identifier, "main", 1, 10⟩, ⟨.LParen, "(", 1, 14⟩,
   ⟨.RParen, ")", 1, 15⟩, ⟨.Colon, ":", 1, 16⟩, ⟨.Int, "int", 1, 18⟩, ⟨.LBrace, "\x7b", 1, 22⟩,
   ⟨.For, "for", 1, 24⟩, ⟨.LParen, "(", 1, 28⟩, ⟨.Let, "let", 1, 29⟩, ⟨.Identifier, "i", 1, 33⟩,
   ⟨.Colon, ":", 1, 34⟩, ⟨.Int, "int", 1, 36⟩, ⟨.Equal, "=", 1, 40⟩, ⟨.Number, "0", 1, 42⟩,
   ⟨.Semicolon, ";", 1, 43⟩, ⟨.Identifier, "i", 1, 45⟩, ⟨.Less, "<", 1, 47⟩,
   ⟨.Number, "10", 1, 49⟩, ⟨.Semicolon, ";", 1, 51⟩, ⟨.Identifier, "i", 1, 53⟩,
   ⟨.PlusPlus, "++", 1, 54⟩, ⟨.RParen, ")", 1, 56⟩, ⟨.LBrace, "\x7b", 1, 58⟩,
   ⟨.Print, "print", 1, 60⟩, ⟨.LParen, "(", 1, 65⟩, ⟨.Identifier, "i", 1, 66⟩,
   ⟨.RParen, ")", 1, 67⟩, ⟨.Semicolon, ";", 1, 68⟩, ⟨.RBrace, "\x7d", 1, 70⟩,
   ⟨.Return, "return", 1, 72⟩, ⟨.Number, "0", 1, 79⟩, ⟨.Semicolon, ";", 1, 80⟩,
   ⟨.RBrace, "\x7d", 1, 82⟩, ⟨.End, "", 1, 83⟩]

/-- The `FunctionDecl` the parser produces for `canonicalSource`. -/
def mainDecl : FunctionDecl :=
  { name := "main", params := [], returnType := "int",
    body := [.ForStmt (some (.VarDecl "i" "int" (.NumberLiteral 0)))
               (some (.BinaryExpr "<" (.Identifier "i") (.NumberLiteral 10)))
               (some (.AssignStmt "i" (.BinaryExpr "+" (.Identifier "i") (.NumberLiteral 1))))
               [.PrintStmt (.Identifier "i")],
             .ReturnStmt (.NumberLiteral 0)] }

/-- Demonstration source for C7: a semicolon immediately preceded by a
newline character. -/
def semiSource : String := "a\n;b"

/-- Demonstration function for the C1 witness: `function w1(x: int): int
then return x; print(99);` — the print after the return must not run. -/
def w1func : FunctionDecl :=
  { name := "w1", params := [("x", "int")], returnType := "int",
    body := [.ReturnStmt (.Identifier "x"), .PrintStmt (.NumberLiteral 99)] }

/-- Demonstration function for the C2 witness: mutates a caller variable,
binds a fresh one, prints, returns 5; the caller environment must come back. -/
def w2func : FunctionDecl :=
  { name := "w2", params := [("x", "int")], returnType := "int",
    body := [.AssignStmt "a" (.NumberLiteral 99), .VarDecl "t" "int" (.NumberLiteral 3),
             .PrintStmt (.Identifier "a"), .ReturnStmt (.NumberLiteral 5)] }

/-- Demonstration function for the C10 witness: mutates `a`, then faults on
an undefined variable. -/
def w10func : FunctionDecl :=
  { name := "w10", params := [("x", "int")], returnType := "int",
    body := [.AssignStmt "a" (.NumberLiteral 2), .ExpressionStmt (.Identifier "z")] }

/-! ## Helper lemmas -/

theorem bindParams_complete (ps : List (String × String)) :
    ∀ (as' : List Int) (st : InterpState), ps.length ≤ as'.length →
    (Interp.bindParams ps as' st).1 = .ok () := by
  induction ps with
  | nil => intro as' st _; rfl
  | cons p ps ih =>
    intro as' st h
    cases as' with
    | nil => simp at h
    | cons a as' => exact ih as' _ (by simpa using h)

theorem bindParams_short (ps : List (String × String)) :
    ∀ (as' : List Int) (st : InterpState), as'.length < ps.length →
    (Interp.bindParams ps as' st).1 = .error .indexOOR := by
  induction ps with
  | nil => intro as' st h; simp at h
  | cons p ps ih =>
    intro as' st h
    cases as' with
    | nil => rfl
    | cons a as' => exact ih as' _ (by simpa using h)

theorem execFunction_ok_vars (n : Nat) (func : FunctionDecl) (args : List Int)
    (st : InterpState) (v : Int) (st' : InterpState)
    (h : Interp.execFunction n func args st = (.ok v, st')) :
    st'.vars = st.vars := by
  cases n with
  | zero => simp [Interp.execFunction] at h
  | succ n =>
    rw [Interp.execFunction] at h
    rcases hbp : Interp.bindParams func.params args st with ⟨r, st1⟩
    rw [hbp] at h
    cases r with
    | error f => simp at h
    | ok u =>
      dsimp only at h
      rcases hb : Interp.execBody n func.body st1 with ⟨rb, st2⟩
      rw [hb] at h
      cases rb with
      | error f => simp at h
      | ok ret =>
        dsimp only at h
        simp only [Prod.mk.injEq, Except.ok.injEq] at h
        rw [← h.2]

/-! ## Claim theorems -/

/-- C1: for a declared function and an argument list supplying all its
parameters, `execFunction` runs the body statements in order (conjunct 5),
stops at the first `return` hit, after which no later statement of the same
body runs (conjuncts 3 and 4), makes the return expression's value the
call's result (conjunct 1), and yields 0 when the body completes without
executing a `return` (conjunct 2). -/
theorem c1_theorem (n : Nat) (func : FunctionDecl) (args : List Int) (st : InterpState)
    (hargs : func.params.length ≤ args.length) :
    (∀ v st2, Interp.execBody n func.body (Interp.bindParams func.params args st).2
        = (.ok (some v), st2) →
      Interp.execFunction (n + 1) func args st = (.ok v, { st2 with vars := st.vars }))
    ∧ (∀ st2, Interp.execBody n func.body (Interp.bindParams func.params args st).2
        = (.ok none, st2) →
      Interp.execFunction (n + 1) func args st = (.ok 0, { st2 with vars := st.vars }))
    ∧ (∀ e rest st0, Interp.execBody (n + 1) (ASTNode.ReturnStmt e :: rest) st0
        = Interp.execBody (n + 1) [ASTNode.ReturnStmt e] st0)
    ∧ (∀ e rest st0 v st1, Interp.evalExpr n e st0 = (.ok v, st1) →
      Interp.execBody (n + 2) (ASTNode.ReturnStmt e :: rest) st0 = (.ok (some v), st1))
    ∧ (∀ s rest st0 st1, Interp.execBodyStep n s st0 = (.ok none, st1) →
      Interp.execBody (n + 1) (s :: rest) st0 = Interp.execBody n rest st1) := by
  have hfst : (Interp.bindParams func.params args st).1 = .ok () :=
    bindParams_complete func.params args st hargs
  rcases hbp : Interp.bindParams func.params args st with ⟨r, st1⟩
  rw [hbp] at hfst
  subst hfst
  refine ⟨?_, ?_, ?_, ?_, ?_⟩
  · intro v st2 hbody
    rw [Interp.execFunction, hbp]
    dsimp only at hbody ⊢
    rw [hbody]
    rfl
  · intro st2 hbody
    rw [Interp.execFunction, hbp]
    dsimp only at hbody ⊢
    rw [hbody]
    rfl
  · intro e rest st0
    cases n with
    | zero => rfl
    | succ n =>
      rw [Interp.execBody, Interp.execBody]
      rcases he : Interp.execBodyStep (n + 1) (ASTNode.ReturnStmt e) st0 with ⟨re, ste⟩
      rw [Interp.execBodyStep] at he
      rcases hev : Interp.evalExpr n e st0 with ⟨rv, stv⟩
      rw [hev] at he
      cases rv with
      | ok v => rw [← he]
      | error f => rw [← he]
  · intro e rest st0 v st1 hev
    rw [Interp.execBody, Interp.execBodyStep, hev]
  · intro s rest st0 st1 hstep
    rw [Interp.execBody, hstep]

/-- Witness for C1 at a concrete call: `w1func` with argument 7 returns the
value of the first `return` (its parameter, 7); the `print` statement after
the `return` never runs (the output stays empty), and the parameter binding
is gone afterwards. -/
theorem c1_witness :
    Interp.execFunction 4 w1func [7] ⟨[], [], []⟩ = (.ok 7, ⟨[], [], []⟩) :=
  (c1_theorem 3 w1func [7] ⟨[], [], []⟩ (by decide)).1 7 ⟨[("x", 7)], [], []⟩ (by rfl)

/-- C2: a function call (`callFunction`) that completes normally restores the
caller's entire variable environment verbatim: afterwards exactly the
pre-call variables are visible, each with its pre-call value, whatever the
body bound or mutated. -/
theorem c2_theorem (n : Nat) (name : String) (args : List Int) (st : InterpState)
    (v : Int) (st' : InterpState)
    (h : Interp.callFunction n name args st = (.ok v, st')) :
    st'.vars = st.vars ∧ ∀ x, lookupVar st'.vars x = lookupVar st.vars x := by
  cases n with
  | zero => simp [Interp.callFunction] at h
  | succ n =>
    rw [Interp.callFunction] at h
    rcases hf : lookupFn st.functions name with _ | func
    · rw [hf] at h; simp at h
    · rw [hf] at h
      dsimp only at h
      have hv := execFunction_ok_vars n func args st v st' h
      exact ⟨hv, fun x => by rw [hv]⟩

/-- Witness for C2: calling `w2func` (which overwrites caller variable `a`,
binds fresh `t`, prints, returns) leaves the caller's variables exactly as
before the call, while the printed output shows the body really ran. -/
theorem c2_witness :
    (⟨[("a", 1)], [("w2", w2func)], [99]⟩ : InterpState).vars
      = (⟨[("a", 1)], [("w2", w2func)], []⟩ : InterpState).vars :=
  (c2_theorem 9 "w2" [2] ⟨[("a", 1)], [("w2", w2func)], []⟩ 5
    ⟨[("a", 1)], [("w2", w2func)], [99]⟩ (by rfl)).1

/-- C5: `evalExpr` on a `BinaryExpr` evaluates the left operand first, the
right operand second (visible in the state threading of the hypotheses), and
then applies the operator: `+ - * /` as host integer arithmetic (`/` is
C-style truncating division), the four comparisons as 1/0, and every other
operator string — `==` and `!=` included — faults with "Unsupported
operator". -/
theorem c5_theorem (n : Nat) (l r : ASTNode) (st st1 st2 : InterpState) (vl vr : Int)
    (hl : Interp.evalExpr n l st = (.ok vl, st1))
    (hr : Interp.evalExpr n r st1 = (.ok vr, st2)) :
    (Interp.evalExpr (n + 1) (.BinaryExpr "+" l r) st = (.ok (vl + vr), st2))
    ∧ (Interp.evalExpr (n + 1) (.BinaryExpr "-" l r) st = (.ok (vl - vr), st2))
    ∧ (Interp.evalExpr (n + 1) (.BinaryExpr "*" l r) st = (.ok (vl * vr), st2))
    ∧ (Interp.evalExpr (n + 1) (.BinaryExpr "/" l r) st = (.ok (vl.tdiv vr), st2))
    ∧ (Interp.evalExpr (n + 1) (.BinaryExpr "<" l r) st
        = (.ok (if vl < vr then 1 else 0), st2))
    ∧ (Interp.evalExpr (n + 1) (.BinaryExpr "<=" l r) st
        = (.ok (if vl ≤ vr then 1 else 0), st2))
    ∧ (Interp.evalExpr (n + 1) (.BinaryExpr ">" l r) st
        = (.ok (if vr < vl then 1 else 0), st2))
    ∧ (Interp.evalExpr (n + 1) (.BinaryExpr ">=" l r) st
        = (.ok (if vr ≤ vl then 1 else 0), st2))
    ∧ (∀ op : String, op ∉ (["+", "-", "*", "/", "<", "<=", ">", ">="] : List String) →
        Interp.evalExpr (n + 1) (.BinaryExpr op l r) st
          = (.error (.exn ("Unsupported operator: " ++ op)), st2)) := by
  refine ⟨?_, ?_, ?_, ?_, ?_, ?_, ?_, ?_, ?_⟩
  · rw [Interp.evalExpr, hl]; dsimp only; rw [hr]; simp
  · rw [Interp.evalExpr, hl]; dsimp only; rw [hr]; simp
  · rw [Interp.evalExpr, hl]; dsimp only; rw [hr]; simp
  · rw [Interp.evalExpr, hl]; dsimp only; rw [hr]; simp
  · rw [Interp.evalExpr, hl]; dsimp only; rw [hr]; simp
  · rw [Interp.evalExpr, hl]; dsimp only; rw [hr]; simp
  · rw [Interp.evalExpr, hl]; dsimp only; rw [hr]; simp
  · rw [Interp.evalExpr, hl]; dsimp only; rw [hr]; simp
  · intro op hop
    simp only [List.mem_cons, List.mem_singleton, not_or] at hop
    obtain ⟨h1, h2, h3, h4, h5, h6, h7, h8, -⟩ := hop
    rw [Interp.evalExpr, hl]
    dsimp only
    rw [hr]
    simp [h1, h2, h3, h4, h5, h6, h7, h8]

/-- Witness for C5: `7 / 2` truncates to 3 and the grammar-accepted `==` is
rejected by evaluation with an "Unsupported operator" fault. -/
theorem c5_witness :
    Interp.evalExpr 2 (.BinaryExpr "/" (.NumberLiteral 7) (.NumberLiteral 2)) ⟨[], [], []⟩
      = (.ok 3, ⟨[], [], []⟩)
    ∧ Interp.evalExpr 2 (.BinaryExpr "==" (.NumberLiteral 1) (.NumberLiteral 1)) ⟨[], [], []⟩
      = (.error (.exn "Unsupported operator: =="), ⟨[], [], []⟩) :=
  ⟨(c5_theorem 1 (.NumberLiteral 7) (.NumberLiteral 2) ⟨[], [], []⟩ ⟨[], [], []⟩
      ⟨[], [], []⟩ 7 2 rfl rfl).2.2.2.1,
   (c5_theorem 1 (.NumberLiteral 1) (.NumberLiteral 1) ⟨[], [], []⟩ ⟨[], [], []⟩
      ⟨[], [], []⟩ 1 1 rfl rfl).2.2.2.2.2.2.2.2 "==" (by decide)⟩

/-- C9: parameter binding pairs parameters with arguments positionally, so it
touches only argument positions `0 .. params.size() - 1`: with at least as
many arguments as parameters every access is in range and binding succeeds;
with fewer, binding performs an out-of-range `vector::operator[]` access
(there is no arity check producing a proper error). -/
theorem c9_theorem (params : List (String × String)) (args : List Int) (st : InterpState) :
    (params.length ≤ args.length → (Interp.bindParams params args st).1 = .ok ())
    ∧ (args.length < params.length →
        (Interp.bindParams params args st).1 = .error .indexOOR) :=
  ⟨bindParams_complete params args st, bindParams_short params args st⟩

/-- Witness for C9: two parameters bind fine from three arguments, and fault
by out-of-range access from one argument. -/
theorem c9_witness :
    (Interp.bindParams [("x", "int"), ("y", "int")] [5, 6, 7] ⟨[], [], []⟩).1 = .ok ()
    ∧ (Interp.bindParams [("x", "int"), ("y", "int")] [5] ⟨[], [], []⟩).1
        = .error .indexOOR :=
  ⟨(c9_theorem [("x", "int"), ("y", "int")] [5, 6, 7] ⟨[], [], []⟩).1 (by decide),
   (c9_theorem [("x", "int"), ("y", "int")] [5] ⟨[], [], []⟩).2 (by decide)⟩

/-- C10: when the body of a call faults, `execFunction` propagates the fault
with the environment exactly as the fault left it — the restore of the saved
environment happens only on normal completion, so parameter bindings and
mutations made before the fault remain in the caller-visible environment. -/
theorem c10_theorem (n : Nat) (func : FunctionDecl) (args : List Int)
    (st st1 st2 : InterpState) (f : Fault)
    (hbind : Interp.bindParams func.params args st = (.ok (), st1))
    (hbody : Interp.execBody n func.body st1 = (.error f, st2)) :
    Interp.execFunction (n + 1) func args st = (.error f, st2) := by
  rw [Interp.execFunction, hbind]
  dsimp only
  rw [hbody]

/-- Witness for C10: calling `w10func` on environment `a = 1` faults on the
undefined variable `z`; afterwards the environment still holds the parameter
binding `x = 5` and the pre-fault mutation `a = 2` — nothing was restored. -/
theorem c10_witness :
    Interp.execFunction 6 w10func [5] ⟨[("a", 1)], [], []⟩
      = (.error (.exn "Undefined variable: z"), ⟨[("a", 2), ("x", 5)], [], []⟩) :=
  c10_theorem 5 w10func [5] ⟨[("a", 1)], [], []⟩ ⟨[("a", 1), ("x", 5)], [], []⟩
    ⟨[("a", 2), ("x", 5)], [], []⟩ (.exn "Undefined variable: z") rfl (by rfl)

/-- C3: binary operator chains parse right-associatively with a single
precedence tier — for ALL operators the loop accepts, `a op1 b op2 c` parses
as `a op1 (b op2 c)` (conjunct 1, over arbitrary operator tokens and number
lexemes); in particular `1 - 2 - 3` tokenizes and parses to `1 - (2 - 3)`
(conjuncts 2 and 3), which evaluates to 2, not -4 (conjunct 4). -/
theorem c3_theorem :
    (∀ (t1 t2 : Token) (la lb lc : String),
      Parser.isBinOpTok t1.type = true → Parser.isBinOpTok t2.type = true →
      Parser.parseExpression 9
          ⟨[⟨.Number, la, 1, 1⟩, t1, ⟨.Number, lb, 1, 1⟩, t2, ⟨.Number, lc, 1, 1⟩]⟩
        = .ok (.BinaryExpr t1.lexeme (.NumberLiteral (stoi la))
            (.BinaryExpr t2.lexeme (.NumberLiteral (stoi lb)) (.NumberLiteral (stoi lc))),
            ⟨[]⟩))
    ∧ tokenize "1 - 2 - 3" = some [⟨.Number, "1", 1, 1⟩, ⟨.Minus, "-", 1, 3⟩,
        ⟨.Number, "2", 1, 5⟩, ⟨.Minus, "-", 1, 7⟩, ⟨.Number, "3", 1, 9⟩, ⟨.End, "", 1, 10⟩]
    ∧ Parser.parseExpression 9 ⟨[⟨.Number, "1", 1, 1⟩, ⟨.Minus, "-", 1, 3⟩,
        ⟨.Number, "2", 1, 5⟩, ⟨.Minus, "-", 1, 7⟩, ⟨.Number, "3", 1, 9⟩, ⟨.End, "", 1, 10⟩]⟩
        = .ok (.BinaryExpr "-" (.NumberLiteral 1)
            (.BinaryExpr "-" (.NumberLiteral 2) (.NumberLiteral 3)), ⟨[⟨.End, "", 1, 10⟩]⟩)
    ∧ Interp.evalExpr 3 (.BinaryExpr "-" (.NumberLiteral 1)
        (.BinaryExpr "-" (.NumberLiteral 2) (.NumberLiteral 3))) ⟨[], [], []⟩
        = (.ok 2, ⟨[], [], []⟩) := by
  refine ⟨?_, by rfl, by rfl, by rfl⟩
  intro t1 t2 la lb lc h1 h2
  obtain ⟨ty1, lex1, l1, c1⟩ := t1
  obtain ⟨ty2, lex2, l2, c2⟩ := t2
  dsimp only at h1 h2 ⊢
  cases ty1 <;> try exact absurd h1 (by decide)
  all_goals cases ty2 <;> try exact absurd h2 (by decide)
  all_goals rfl

/-- Witness for C3's universally quantified conjunct at mixed operators:
`4 * 5 + 6` parses as `4 * (5 + 6)` — one precedence tier, right grouping. -/
theorem c3_witness :
    Parser.parseExpression 9 ⟨[⟨.Number, "4", 1, 1⟩, ⟨.Star, "*", 1, 3⟩,
        ⟨.Number, "5", 1, 1⟩, ⟨.Plus, "+", 1, 7⟩, ⟨.Number, "6", 1, 1⟩]⟩
      = .ok (.BinaryExpr "*" (.NumberLiteral 4)
          (.BinaryExpr "+" (.NumberLiteral 5) (.NumberLiteral 6)), ⟨[]⟩) :=
  c3_theorem.1 ⟨.Star, "*", 1, 3⟩ ⟨.Plus, "+", 1, 7⟩ "4" "5" "6" rfl rfl

/-- C6 evidence: inside a block, `f(1);` does NOT parse as a call statement.
`parseBlock`'s identifier branch consumes `f`, sees no `=`, and parses the
expression from the next token onward, so the statement becomes
`ExpressionStmt` of the parenthesized expression `(1)` — the identifier `f`
is dropped and no `CallExpr` is built (conjuncts 1 and 2). The same token
sequence through `parseStatement` — the production the claim and the spec's
grammar describe — does produce the call statement (conjuncts 3 and 4). -/
theorem c6_theorem :
    tokenize "\x7b f(1); \x7d" = some [⟨.LBrace, "\x7b", 1, 1⟩, ⟨.Identifier, "f", 1, 3⟩,
      ⟨.LParen, "(", 1, 4⟩, ⟨.Number, "1", 1, 5⟩, ⟨.RParen, ")", 1, 6⟩,
      ⟨.Semicolon, ";", 1, 7⟩, ⟨.RBrace, "\x7d", 1, 9⟩, ⟨.End, "", 1, 10⟩]
    ∧ Parser.parseBlock 9 ⟨[⟨.LBrace, "\x7b", 1, 1⟩, ⟨.Identifier, "f", 1, 3⟩,
        ⟨.LParen, "(", 1, 4⟩, ⟨.Number, "1", 1, 5⟩, ⟨.RParen, ")", 1, 6⟩,
        ⟨.Semicolon, ";", 1, 7⟩, ⟨.RBrace, "\x7d", 1, 9⟩, ⟨.End, "", 1, 10⟩]⟩
      = .ok ([.ExpressionStmt (.NumberLiteral 1)], ⟨[⟨.End, "", 1, 10⟩]⟩)
    ∧ tokenize "f(1);" = some [⟨.Identifier, "f", 1, 1⟩, ⟨.LParen, "(", 1, 2⟩,
        ⟨.Number, "1", 1, 3⟩, ⟨.RParen, ")", 1, 4⟩, ⟨.Semicolon, ";", 1, 5⟩,
        ⟨.End, "", 1, 6⟩]
    ∧ Parser.parseStatement 9 ⟨[⟨.Identifier, "f", 1, 1⟩, ⟨.LParen, "(", 1, 2⟩,
        ⟨.Number, "1", 1, 3⟩, ⟨.RParen, ")", 1, 4⟩, ⟨.Semicolon, ";", 1, 5⟩,
        ⟨.End, "", 1, 6⟩]⟩
      = .ok (.CallExpr "f" [.NumberLiteral 1], ⟨[⟨.End, "", 1, 6⟩]⟩) :=
  ⟨by rfl, by rfl, by rfl, by rfl⟩

set_option maxRecDepth 10000 in
/-- C4: running the canonical program through the full pipeline (lexer,
parser, driver, interpreter) prints the integers 0 through 9 in increasing
order, one per printed line, and then reports that `main` returned 0. -/
theorem c4_theorem :
    runProgram 99 canonicalSource = (.ok (some 0), [0, 1, 2, 3, 4, 5, 6, 7, 8, 9]) := by
  have ht : tokenize canonicalSource = some canonicalTokens := by decide
  have hp : Parser.parseTopLevel 98 ⟨canonicalTokens⟩
      = .ok (.fn mainDecl, ⟨[⟨.End, "", 1, 83⟩]⟩) := by rfl
  have hc : Interp.callFunction 97 "main" [] ⟨[], [("main", mainDecl)], []⟩
      = (.ok 0, ⟨[], [("main", mainDecl)], [0, 1, 2, 3, 4, 5, 6, 7, 8, 9]⟩) := by
    simp [Interp.callFunction, Interp.execFunction, Interp.execBody, Interp.execBodyStep,
      Interp.execStatement, Interp.execStatementO, Interp.evalExprO, Interp.evalExpr,
      Interp.evalArgs, Interp.forIter, Interp.whileIter, Interp.execStmts, Interp.bindParams,
      lookupVar, lookupFn, insertVar, mainDecl, Option.getD]
  have hname : mainDecl.name = "main" := rfl
  simp [runProgram, ht, driverLoop, pIsAtEnd, curTok, endToken, addFunction, insertFn,
    lookupFn, hname, hp, hc]
  simp [canonicalTokens]

/-- Helper for C7: once the lexer's cursor sits on the semicolon of
`semiSource` (index 2, whose predecessor is the newline at index 1),
`nextToken` re-reads that same semicolon and retries forever — for every
fuel the model reports no result. The unconstrained `sp/col/ls/cs`
parameters absorb the column bookkeeping that changes across retries while
the cursor does not. -/
theorem semicolonRetry_loop (n : Nat) :
    ∀ (sp col ls cs : Nat),
      Lexer.nextToken n ⟨semiSource.data, 2, sp, 2, col, ls, cs⟩ = none := by
  induction n with
  | zero => intro sp col ls cs; rfl
  | succ n ih => intro sp col ls cs; exact ih 2 (col + 1) 2 col

/-- C7 is wrong about the code: on `"a\n;b"`, after the identifier token `a`
(conjunct 1), the call that meets the newline-preceded semicolon puts the
cursor back onto the semicolon and retries, re-reading the very same
semicolon with the same newline before it — `nextToken` never terminates and
never returns the token after the semicolon (conjunct 2: no result at any
fuel; in the C++ this is unbounded recursion in `handleSemicolon`). -/
theorem c7_theorem :
    Lexer.nextToken 1 (initLexer semiSource)
      = some (⟨.Identifier, "a", 1, 1⟩, ⟨semiSource.data, 1, 0, 1, 2, 1, 1⟩)
    ∧ ∀ fuel : Nat, Lexer.nextToken fuel ⟨semiSource.data, 1, 0, 1, 2, 1, 1⟩ = none := by
  refine ⟨by rfl, ?_⟩
  intro fuel
  cases fuel with
  | zero => rfl
  | succ n => exact semicolonRetry_loop n 2 2 2 1

theorem advance_source (st : LexState) : ((Lexer.advance st).2).source = st.source := by
  rw [Lexer.advance]
  split
  · rfl
  · dsimp only
    split <;> rfl

theorem advance_fst (st : LexState) (h : Lexer.isAtEnd st = false) :
    (Lexer.advance st).1 = st.source.getD st.current '\x00' := by
  rw [Lexer.advance]
  rw [if_neg (by simp [h])]
  dsimp only
  split <;> rfl

theorem skipLineComment_source (n : Nat) :
    ∀ st, (Lexer.skipLineComment n st).source = st.source := by
  induction n with
  | zero => intro st; rfl
  | succ n ih =>
    intro st
    rw [Lexer.skipLineComment]
    split
    · rw [ih, advance_source]
    · rfl

theorem skipWhitespace_source (n : Nat) :
    ∀ st, (Lexer.skipWhitespace n st).source = st.source := by
  induction n with
  | zero => intro st; rfl
  | succ n ih =>
    intro st
    rw [Lexer.skipWhitespace]
    split
    · rw [ih, advance_source]
    · rw [ih, advance_source]
    · rw [ih, advance_source]
    · rw [ih, advance_source]
    · split
      · rw [ih, skipLineComment_source]
      · rfl
    · rfl

theorem getD_mem (l : List Char) :
    ∀ (i : Nat) (d : Char), i < l.length → l.getD i d ∈ l := by
  induction l with
  | nil => intro i d h; simp at h
  | cons c cs ih =>
    intro i d h
    cases i with
    | zero => simp [List.getD]
    | succ i =>
      simp only [List.getD_cons_succ]
      exact List.mem_cons_of_mem _ (ih i d (by simpa using h))

set_option maxHeartbeats 1000000 in
theorem keywordFind_ne (s : String) (k : token_type) (h : Lexer.keywordFind s = some k) :
    k ≠ .LessEqual ∧ k ≠ .GreaterEqual := by
  unfold Lexer.keywordFind at h
  split_ifs at h <;> injection h with h2 <;> subst h2 <;> exact ⟨by decide, by decide⟩

theorem identifier_type_ne (st : LexState) :
    ((Lexer.identifier st).1).type ≠ .LessEqual
    ∧ ((Lexer.identifier st).1).type ≠ .GreaterEqual := by
  unfold Lexer.identifier
  dsimp only
  split
  · next k heq => exact keywordFind_ne _ _ heq
  · simp [Lexer.makeToken]

theorem number_type_ne (st : LexState) :
    ((Lexer.number st).1).type ≠ .LessEqual
    ∧ ((Lexer.number st).1).type ≠ .GreaterEqual := by
  simp [Lexer.number, Lexer.makeToken]

theorem stringLiteral_type_ne (st : LexState) :
    ((Lexer.stringLiteral st).1).type ≠ .LessEqual
    ∧ ((Lexer.stringLiteral st).1).type ≠ .GreaterEqual := by
  unfold Lexer.stringLiteral
  dsimp only
  split
  · simp [Lexer.errorToken]
  · simp [Lexer.makeToken]

set_option maxHeartbeats 1000000 in
theorem nextToken_never_composite (fuel : Nat) :
    ∀ (st : LexState) (t : Token) (st' : LexState),
      (∀ c ∈ st.source, c.toNat < 256) →
      Lexer.nextToken fuel st = some (t, st') →
      t.type ≠ .LessEqual ∧ t.type ≠ .GreaterEqual := by
  induction fuel with
  | zero => intro st t st' _ heq; exact Option.noConfusion heq
  | succ n ih =>
    intro st t st' hascii heq
    rw [Lexer.nextToken] at heq
    dsimp only at heq
    set st1 := Lexer.skipWhitespace (st.source.length + 1 - st.current) st with hst1
    set st2 : LexState :=
      { st1 with start := st1.current, line_start := st1.line, column_start := st1.column }
      with hst2
    have hs2 : st2.source = st.source := by
      rw [hst2, hst1]
      exact skipWhitespace_source _ _
    by_cases hend : Lexer.isAtEnd st2 = true
    · rw [if_pos hend] at heq
      have h' := Option.some.inj heq
      have ht := congrArg Prod.fst h'
      dsimp only at ht
      rw [← ht]
      simp [Lexer.makeToken]
    · rw [if_neg hend] at heq
      have hend' : Lexer.isAtEnd st2 = false := by simpa using hend
      rcases hadv : Lexer.advance st2 with ⟨c, st3⟩
      rw [hadv] at heq
      dsimp only at heq
      have hcval : c = st2.source.getD st2.current '\x00' := by
        have h := advance_fst st2 hend'
        rw [hadv] at h
        dsimp only at h
        exact h
      have hcur : st2.current < st2.source.length := by
        have h := of_decide_eq_false (by rwa [Lexer.isAtEnd] at hend')
        omega
      have hmem : c ∈ st.source := by
        rw [hcval, ← hs2]
        exact getD_mem _ _ _ hcur
      have hlt : c.toNat < 256 := hascii c hmem
      have hs3 : st3.source = st.source := by
        have h := advance_source st2
        rw [hadv] at h
        dsimp only at h
        rw [h]
        exact hs2
      by_cases halpha : Lexer.isAlpha c = true
      · rw [if_pos halpha] at heq
        have h' := Option.some.inj heq
        have ht := congrArg Prod.fst h'
        dsimp only at ht
        rw [← ht]
        exact identifier_type_ne _
      · rw [if_neg halpha] at heq
        by_cases hdigit : Lexer.isDigitC c = true
        · rw [if_pos hdigit] at heq
          have h' := Option.some.inj heq
          have ht := congrArg Prod.fst h'
          dsimp only at ht
          rw [← ht]
          exact number_type_ne _
        · rw [if_neg hdigit] at heq
          by_cases hquote : c = '"'
          · rw [if_pos hquote] at heq
            have h' := Option.some.inj heq
            have ht := congrArg Prod.fst h'
            dsimp only at ht
            rw [← ht]
            exact stringLiteral_type_ne _
          · rw [if_neg hquote] at heq
            by_cases hlp : c = '('
            · rw [if_pos hlp] at heq
              have h' := Option.some.inj heq
              have ht := congrArg Prod.fst h'
              dsimp only at ht
              rw [← ht]
              simp [Lexer.makeToken]
            · rw [if_neg hlp] at heq
              by_cases hrp : c = ')'
              · rw [if_pos hrp] at heq
                have h' := Option.some.inj heq
                have ht := congrArg Prod.fst h'
                dsimp only at ht
                rw [← ht]
                simp [Lexer.makeToken]
              · rw [if_neg hrp] at heq
                by_cases hlbc : c = '\x7b'
                · rw [if_pos hlbc] at heq
                  have h' := Option.some.inj heq
                  have ht := congrArg Prod.fst h'
                  dsimp only at ht
                  rw [← ht]
                  simp [Lexer.makeToken]
                · rw [if_neg hlbc] at heq
                  by_cases hlbk : c = '['
                  · rw [if_pos hlbk] at heq
                    have h' := Option.some.inj heq
                    have ht := congrArg Prod.fst h'
                    dsimp only at ht
                    rw [← ht]
                    simp [Lexer.makeToken]
                  · rw [if_neg hlbk] at heq
                    by_cases hless : c = '<'
                    · rw [if_pos hless] at heq
                      have h' := Option.some.inj heq
                      have ht := congrArg Prod.fst h'
                      dsimp only at ht
                      rw [← ht]
                      simp [Lexer.makeToken]
                    · rw [if_neg hless] at heq
                      by_cases hle : c = Lexer.lessEqualLiteral
                      · rw [if_pos hle] at heq
                        exfalso
                        have h1 : c.toNat = 15421 := by rw [hle]; rfl
                        omega
                      · rw [if_neg hle] at heq
                        by_cases hgt : c = '>'
                        · rw [if_pos hgt] at heq
                          have h' := Option.some.inj heq
                          have ht := congrArg Prod.fst h'
                          dsimp only at ht
                          rw [← ht]
                          simp [Lexer.makeToken]
                        · rw [if_neg hgt] at heq
                          by_cases hge : c = Lexer.greaterEqualLiteral
                          · rw [if_pos hge] at heq
                            exfalso
                            have h1 : c.toNat = 15933 := by rw [hge]; rfl
                            omega
                          · rw [if_neg hge] at heq
                            by_cases hrbk : c = ']'
                            · rw [if_pos hrbk] at heq
                              have h' := Option.some.inj heq
                              have ht := congrArg Prod.fst h'
                              dsimp only at ht
                              rw [← ht]
                              simp [Lexer.makeToken]
                            · rw [if_neg hrbk] at heq
                              by_cases hrbc : c = '\x7d'
                              · rw [if_pos hrbc] at heq
                                have h' := Option.some.inj heq
                                have ht := congrArg Prod.fst h'
                                dsimp only at ht
                                rw [← ht]
                                simp [Lexer.makeToken]
                              · rw [if_neg hrbc] at heq
                                by_cases hsemi : c = ';'
                                · rw [if_pos hsemi] at heq
                                  by_cases hr : st3.current > 1 ∧ st3.source.getD (st3.current - 2) '\x00' = '\n'
                                  · rw [if_pos hr] at heq
                                    refine ih _ t st' ?_ heq
                                    intro c' hc'
                                    apply hascii
                                    rw [← hs3]
                                    exact hc'
                                  · rw [if_neg hr] at heq
                                    have h' := Option.some.inj heq
                                    have ht := congrArg Prod.fst h'
                                    dsimp only at ht
                                    rw [← ht]
                                    simp [Lexer.makeToken]
                                · rw [if_neg hsemi] at heq
                                  by_cases hcolon : c = ':'
                                  · rw [if_pos hcolon] at heq
                                    have h' := Option.some.inj heq
                                    have ht := congrArg Prod.fst h'
                                    dsimp only at ht
                                    rw [← ht]
                                    simp [Lexer.makeToken]
                                  · rw [if_neg hcolon] at heq
                                    by_cases hcomma : c = ','
                                    · rw [if_pos hcomma] at heq
                                      have h' := Option.some.inj heq
                                      have ht := congrArg Prod.fst h'
                                      dsimp only at ht
                                      rw [← ht]
                                      simp [Lexer.makeToken]
                                    · rw [if_neg hcomma] at heq
                                      by_cases heqc : c = '='
                                      · rw [if_pos heqc] at heq
                                        by_cases hm : (Lexer.matchChar '=' st3).1 = true
                                        · rw [if_pos hm] at heq
                                          have h' := Option.some.inj heq
                                          have ht := congrArg Prod.fst h'
                                          dsimp only at ht
                                          rw [← ht]
                                          simp [Lexer.makeToken]
                                        · rw [if_neg hm] at heq
                                          have h' := Option.some.inj heq
                                          have ht := congrArg Prod.fst h'
                                          dsimp only at ht
                                          rw [← ht]
                                          simp [Lexer.makeToken]
                                      · rw [if_neg heqc] at heq
                                        by_cases hplus : c = '+'
                                        · rw [if_pos hplus] at heq
                                          by_cases hm : (Lexer.matchChar '+' st3).1 = true
                                          · rw [if_pos hm] at heq
                                            have h' := Option.some.inj heq
                                            have ht := congrArg Prod.fst h'
                                            dsimp only at ht
                                            rw [← ht]
                                            simp [Lexer.makeToken]
                                          · rw [if_neg hm] at heq
                                            have h' := Option.some.inj heq
                                            have ht := congrArg Prod.fst h'
                                            dsimp only at ht
                                            rw [← ht]
                                            simp [Lexer.makeToken]
                                        · rw [if_neg hplus] at heq
                                          by_cases hminus : c = '-'
                                          · rw [if_pos hminus] at heq
                                            by_cases hm : (Lexer.matchChar '-' st3).1 = true
                                            · rw [if_pos hm] at heq
                                              have h' := Option.some.inj heq
                                              have ht := congrArg Prod.fst h'
                                              dsimp only at ht
                                              rw [← ht]
                                              simp [Lexer.makeToken]
                                            · rw [if_neg hm] at heq
                                              have h' := Option.some.inj heq
                                              have ht := congrArg Prod.fst h'
                                              dsimp only at ht
                                              rw [← ht]
                                              simp [Lexer.makeToken]
                                          · rw [if_neg hminus] at heq
                                            by_cases hstar : c = '*'
                                            · rw [if_pos hstar] at heq
                                              have h' := Option.some.inj heq
                                              have ht := congrArg Prod.fst h'
                                              dsimp only at ht
                                              rw [← ht]
                                              simp [Lexer.makeToken]
                                            · rw [if_neg hstar] at heq
                                              by_cases hslash : c = '/'
                                              · rw [if_pos hslash] at heq
                                                have h' := Option.some.inj heq
                                                have ht := congrArg Prod.fst h'
                                                dsimp only at ht
                                                rw [← ht]
                                                simp [Lexer.makeToken]
                                              · rw [if_neg hslash] at heq
                                                have h' := Option.some.inj heq
                                                have ht := congrArg Prod.fst h'
                                                dsimp only at ht
                                                rw [← ht]
                                                simp [Lexer.errorToken]

/-- C8: the single-character dispatch can never produce the multi-character
operator tokens — for every C++ input (all characters below 256, while the
dead `case` labels compare against the multi-character literal values 15421
and 15933), `nextToken` never returns a `LessEqual` or `GreaterEqual` token
(conjunct 1); the texts `<=` and `>=` tokenize as `Less`/`Greater` followed
by `Equal` (conjuncts 2 and 3). -/
theorem c8_theorem :
    (∀ (fuel : Nat) (st : LexState) (t : Token) (st' : LexState),
      (∀ c ∈ st.source, c.toNat < 256) →
      Lexer.nextToken fuel st = some (t, st') →
      t.type ≠ .LessEqual ∧ t.type ≠ .GreaterEqual)
    ∧ tokenize "<=" = some [⟨.Less, "<", 1, 1⟩, ⟨.Equal, "=", 1, 2⟩, ⟨.End, "", 1, 3⟩]
    ∧ tokenize ">=" = some [⟨.Greater, ">", 1, 1⟩, ⟨.Equal, "=", 1, 2⟩, ⟨.End, "", 1, 3⟩] :=
  ⟨nextToken_never_composite, by rfl, by rfl⟩

/-- Witness for C8's quantified conjunct: on the concrete input `<=` the
first token the lexer returns is not a composite comparison token. -/
theorem c8_witness :
    (⟨.Less, "<", 1, 1⟩ : Token).type ≠ token_type.LessEqual
    ∧ (⟨.Less, "<", 1, 1⟩ : Token).type ≠ token_type.GreaterEqual :=
  c8_theorem.1 1 (initLexer "<=") ⟨.Less, "<", 1, 1⟩
    ⟨"<=".data, 1, 0, 1, 2, 1, 1⟩ (by decide) (by rfl)
